import Mathlib

/-!
Verification development for the Python.Publisher.Subscriber repository.

The Broker, the HTTP publish route and the Socket.IO notification fan-out are
embedded from src/src/pubsub_ws.py (the evolved variant of the server, whose
failure semantics the specification describes; src/pubsub_ws.py is an earlier
duplicate of the same logic without the try/except error handling).  The client
SDK publish call is embedded from src/src/client.py and the lib client's
message handler from src/lib/pubsub_client.py.

Conventions of the embedding:

* JSON payloads are modelled by the inductive type `Json` (numbers restricted
  to integers; IEEE floats are out of scope).  The Python standard library
  collaborators json.dumps / json.loads are modelled by `Json.dumps` /
  `Json.loads`, an executable serializer and parser for which the round trip
  `loads (dumps j) = some j` is proved below; escaping is restricted to the
  two characters that affect parsing (quote and backslash) and compact
  separators are used, which preserves the library's contract that dumps is
  injective and loads is its left inverse.
* The SQLite store is a record of three row lists.  sqlite3 columns are
  dynamically typed, so text-ish columns hold `Json` values; a SQL NULL is
  `Json.null` (Python None is bound as NULL).  `ORDER BY timestamp DESC` is
  modelled by a stable insertion sort on the timestamp.
* A sqlite3.Error raised inside a Broker method is modelled by the boolean
  `storageFails` parameter fed to `sqlExec`: the try/except sqlite3.Error
  handler logs, rolls the transaction back (no committed change) and returns
  normally, so the failing variant of each operation returns the unchanged
  store and emits nothing, and each read returns the empty list.
* socketio.emit is modelled by an emission trace: `EmitTarget.all` is a
  broadcast with no `to=` argument (every connected session receives it) and
  `EmitTarget.room r` is an emission scoped to room `r`; `receivesB` says
  whether a session receives an emission given its room membership.
* time.time() is modelled by a `now : Nat` parameter per operation.
-/

/-- Model of a Python/JSON value as stored and transported by the system
(numbers restricted to integers). -/
inductive Json where
  | null : Json
  | bool : Bool → Json
  | num : Int → Json
  | str : String → Json
  | arr : List Json → Json
  | obj : List (String × Json) → Json
deriving Repr

mutual

def jsonDecEq : (a b : Json) → Decidable (a = b)
  | .null, .null => isTrue rfl
  | .bool a, .bool b =>
    match decEq a b with
    | isTrue h => isTrue (by rw [h])
    | isFalse h => isFalse (fun hh => h (by cases hh; rfl))
  | .num a, .num b =>
    match decEq a b with
    | isTrue h => isTrue (by rw [h])
    | isFalse h => isFalse (fun hh => h (by cases hh; rfl))
  | .str a, .str b =>
    match decEq a b with
    | isTrue h => isTrue (by rw [h])
    | isFalse h => isFalse (fun hh => h (by cases hh; rfl))
  | .arr a, .arr b =>
    match jsonListDecEq a b with
    | isTrue h => isTrue (by rw [h])
    | isFalse h => isFalse (fun hh => h (by cases hh; rfl))
  | .obj a, .obj b =>
    match jsonFieldsDecEq a b with
    | isTrue h => isTrue (by rw [h])
    | isFalse h => isFalse (fun hh => h (by cases hh; rfl))
  | .null, .bool _ => isFalse (fun h => Json.noConfusion h)
  | .null, .num _ => isFalse (fun h => Json.noConfusion h)
  | .null, .str _ => isFalse (fun h => Json.noConfusion h)
  | .null, .arr _ => isFalse (fun h => Json.noConfusion h)
  | .null, .obj _ => isFalse (fun h => Json.noConfusion h)
  | .bool _, .null => isFalse (fun h => Json.noConfusion h)
  | .bool _, .num _ => isFalse (fun h => Json.noConfusion h)
  | .bool _, .str _ => isFalse (fun h => Json.noConfusion h)
  | .bool _, .arr _ => isFalse (fun h => Json.noConfusion h)
  | .bool _, .obj _ => isFalse (fun h => Json.noConfusion h)
  | .num _, .null => isFalse (fun h => Json.noConfusion h)
  | .num _, .bool _ => isFalse (fun h => Json.noConfusion h)
  | .num _, .str _ => isFalse (fun h => Json.noConfusion h)
  | .num _, .arr _ => isFalse (fun h => Json.noConfusion h)
  | .num _, .obj _ => isFalse (fun h => Json.noConfusion h)
  | .str _, .null => isFalse (fun h => Json.noConfusion h)
  | .str _, .bool _ => isFalse (fun h => Json.noConfusion h)
  | .str _, .num _ => isFalse (fun h => Json.noConfusion h)
  | .str _, .arr _ => isFalse (fun h => Json.noConfusion h)
  | .str _, .obj _ => isFalse (fun h => Json.noConfusion h)
  | .arr _, .null => isFalse (fun h => Json.noConfusion h)
  | .arr _, .bool _ => isFalse (fun h => Json.noConfusion h)
  | .arr _, .num _ => isFalse (fun h => Json.noConfusion h)
  | .arr _, .str _ => isFalse (fun h => Json.noConfusion h)
  | .arr _, .obj _ => isFalse (fun h => Json.noConfusion h)
  | .obj _, .null => isFalse (fun h => Json.noConfusion h)
  | .obj _, .bool _ => isFalse (fun h => Json.noConfusion h)
  | .obj _, .num _ => isFalse (fun h => Json.noConfusion h)
  | .obj _, .str _ => isFalse (fun h => Json.noConfusion h)
  | .obj _, .arr _ => isFalse (fun h => Json.noConfusion h)

def jsonListDecEq : (a b : List Json) → Decidable (a = b)
  | [], [] => isTrue rfl
  | [], _ :: _ => isFalse (fun h => List.noConfusion h)
  | _ :: _, [] => isFalse (fun h => List.noConfusion h)
  | a :: as, b :: bs =>
    match jsonDecEq a b with
    | isTrue h1 =>
      match jsonListDecEq as bs with
      | isTrue h2 => isTrue (by rw [h1, h2])
      | isFalse h2 => isFalse (fun hh => h2 (by cases hh; rfl))
    | isFalse h1 => isFalse (fun hh => h1 (by cases hh; rfl))

def jsonFieldsDecEq : (a b : List (String × Json)) → Decidable (a = b)
  | [], [] => isTrue rfl
  | [], _ :: _ => isFalse (fun h => List.noConfusion h)
  | _ :: _, [] => isFalse (fun h => List.noConfusion h)
  | (k, v) :: as, (l, w) :: bs =>
    match decEq k l with
    | isTrue hk =>
      match jsonDecEq v w with
      | isTrue hv =>
        match jsonFieldsDecEq as bs with
        | isTrue ht => isTrue (by rw [hk, hv, ht])
        | isFalse ht => isFalse (fun hh => ht (by cases hh; rfl))
      | isFalse hv => isFalse (fun hh => hv (by cases hh; rfl))
    | isFalse hk => isFalse (fun hh => hk (by cases hh; rfl))

end

instance : DecidableEq Json := jsonDecEq

def lbrace : Char := Char.ofNat 123

def rbrace : Char := Char.ofNat 125

/-- Escaping of one character inside a JSON string literal (model of the json
library collaborator; only the characters that affect parsing are escaped). -/
def escC (c : Char) : List Char := if c = '"' ∨ c = '\\' then ['\\', c] else [c]

def escStr : List Char → List Char
  | [] => []
  | c :: cs => escC c ++ escStr cs

def digitChar (n : Nat) : Char := Char.ofNat (48 + n)

/-- Decimal digits of n, most significant first, with an explicit fuel argument
(fuel ≥ n suffices) so that the definition is structural. -/
def natDigitsAux : Nat → Nat → List Char
  | 0, _ => []
  | fuel+1, n => if n = 0 then [] else natDigitsAux fuel (n / 10) ++ [digitChar (n % 10)]

def natChars (n : Nat) : List Char := if n = 0 then ['0'] else natDigitsAux n n

def intChars (i : Int) : List Char := if i < 0 then '-' :: natChars i.natAbs else natChars i.natAbs

def nullChars : List Char := ['n', 'u', 'l', 'l']

def trueChars : List Char := ['t', 'r', 'u', 'e']

def falseChars : List Char := ['f', 'a', 'l', 's', 'e']

mutual

/-- Serializer underlying the model of the json.dumps collaborator. -/
def dumpsChars : Json → List Char
  | .null => nullChars
  | .bool true => trueChars
  | .bool false => falseChars
  | .num i => intChars i
  | .str s => '"' :: (escStr s.data ++ ['"'])
  | .arr [] => ['[', ']']
  | .arr (x :: xs) => '[' :: (dumpsChars x ++ (dumpsItems xs ++ [']']))
  | .obj [] => [lbrace, rbrace]
  | .obj (kv :: kvs) => lbrace :: (dumpsField kv ++ (dumpsFields kvs ++ [rbrace]))

def dumpsItems : List Json → List Char
  | [] => []
  | x :: xs => ',' :: (dumpsChars x ++ dumpsItems xs)

def dumpsField : String × Json → List Char
  | (k, v) => '"' :: (escStr k.data ++ ('"' :: (':' :: dumpsChars v)))

def dumpsFields : List (String × Json) → List Char
  | [] => []
  | kv :: kvs => ',' :: (dumpsField kv ++ dumpsFields kvs)

end

/-- Model of the Python json.dumps collaborator used by the Broker to store
payload columns. -/
def Json.dumps (j : Json) : String := String.mk (dumpsChars j)

def readDigits : Nat → List Char → Nat × List Char
  | acc, c :: cs => if c.isDigit then readDigits (acc * 10 + (c.toNat - 48)) cs else (acc, c :: cs)
  | acc, [] => (acc, [])

mutual

def parseStrBody : List Char → List Char → Option (String × List Char)
  | [], _ => none
  | c :: rest, acc =>
    if c = '\\' then parseStrEsc rest acc
    else if c = '"' then some (String.mk acc.reverse, rest)
    else parseStrBody rest (c :: acc)

def parseStrEsc : List Char → List Char → Option (String × List Char)
  | [], _ => none
  | c :: rest, acc => parseStrBody rest (c :: acc)

end

def stripPre : List Char → List Char → Option (List Char)
  | [], cs => some cs
  | p :: ps, c :: cs => if c = p then stripPre ps cs else none
  | _ :: _, [] => none

def parseNum (neg : Bool) (first : Char) (rest : List Char) : Option (Json × List Char) :=
  let p := readDigits (first.toNat - 48) rest
  some (Json.num (if neg then -(p.1 : Int) else (p.1 : Int)), p.2)

/-- Destructure the result of a sub-parse into failure, exhausted input, or a
value followed by a separator character. -/
def step2 {α β : Type} : Option (α × List Char) → (α → Char → List Char → Option β) → Option β
  | none, _ => none
  | some (_, []), _ => none
  | some (a, c :: r), f => f a c r

mutual

/-- Recursive-descent JSON parser underlying the model of the json.loads
collaborator; the fuel argument makes the recursion structural, and any fuel
at least the size of the value suffices. -/
def parseJ : Nat → List Char → Option (Json × List Char)
  | 0, _ => none
  | _+1, [] => none
  | fuel+1, c :: rest =>
    if c = 'n' then (stripPre ['u', 'l', 'l'] rest).map (fun r => (Json.null, r))
    else if c = 't' then (stripPre ['r', 'u', 'e'] rest).map (fun r => (Json.bool true, r))
    else if c = 'f' then (stripPre ['a', 'l', 's', 'e'] rest).map (fun r => (Json.bool false, r))
    else if c = '"' then (parseStrBody rest []).map (fun p => (Json.str p.1, p.2))
    else if c = '[' then
      if rest.head? = some ']' then some (Json.arr [], rest.tail)
      else (parseItems fuel rest).map (fun p => (Json.arr p.1, p.2))
    else if c = lbrace then
      if rest.head? = some rbrace then some (Json.obj [], rest.tail)
      else (parseFields fuel rest).map (fun p => (Json.obj p.1, p.2))
    else if c = '-' then
      if (rest.head?.map Char.isDigit).getD false then
        parseNum true (rest.headD ' ') rest.tail
      else none
    else if c.isDigit then parseNum false c rest
    else none

def parseItems : Nat → List Char → Option (List Json × List Char)
  | 0, _ => none
  | fuel+1, cs =>
    step2 (parseJ fuel cs) (fun x c r2 =>
      if c = ',' then (parseItems fuel r2).map (fun p => (x :: p.1, p.2))
      else if c = ']' then some ([x], r2)
      else none)

def parseFields : Nat → List Char → Option (List (String × Json) × List Char)
  | 0, _ => none
  | _+1, [] => none
  | fuel+1, c :: r =>
    if c = '"' then
      step2 (parseStrBody r []) (fun k c2 r3 =>
        if c2 = ':' then
          step2 (parseJ fuel r3) (fun v c5 r5 =>
            if c5 = ',' then (parseFields fuel r5).map (fun p => ((k, v) :: p.1, p.2))
            else if c5 = rbrace then some ([(k, v)], r5)
            else none)
        else none)
    else none

end

/-- Model of the Python json.loads collaborator used by the Broker read
operations to decode stored payload columns. -/
def Json.loads (s : String) : Option Json :=
  match parseJ (s.data.length + 1) s.data with
  | some (j, []) => some j
  | _ => none

def noDigit : List Char → Bool
  | [] => true
  | c :: _ => !c.isDigit

mutual

/-- Structural size of a JSON value, used as a fuel bound for the parser. -/
def jsize : Json → Nat
  | .arr xs => 1 + isize xs
  | .obj kvs => 1 + fsize kvs
  | _ => 1

def isize : List Json → Nat
  | [] => 0
  | x :: xs => jsize x + 1 + isize xs

def fsize : List (String × Json) → Nat
  | [] => 0
  | kv :: kvs => jsize kv.2 + 1 + fsize kvs

end

/-- Python truthiness of a JSON value, as tested by the publish route's guard
`if not all([topic, message_id, message, producer])` (a missing key yields
Python None, modelled by Json.null, which is falsy). -/
def pyTruthy : Json → Bool
  | .null => false
  | .bool b => b
  | .num n => !(n == 0)
  | .str s => !(s == "")
  | .arr xs => !xs.isEmpty
  | .obj kvs => !kvs.isEmpty

/-- Row of the messages table: topic, message_id, message (the json.dumps text
of the payload), producer, timestamp (src/src/pubsub_ws.py, save_message). -/
structure MessageRow where
  topic : Json
  message_id : Json
  message : String
  producer : Json
  timestamp : Nat
deriving DecidableEq, Repr

/-- Row of the subscriptions table: sid, consumer, topic, connected_at. -/
structure SubscriptionRow where
  sid : String
  consumer : Json
  topic : Json
  connected_at : Nat
deriving DecidableEq, Repr

/-- Row of the consumptions table: consumer, topic, message_id, message (the
json.dumps text of the payload), timestamp. -/
structure ConsumptionRow where
  consumer : Json
  topic : Json
  message_id : Json
  message : String
  timestamp : Nat
deriving DecidableEq, Repr

/-- The SQLite store (pubsub.db): the three tables created by the migration
script. -/
structure DB where
  messages : List MessageRow
  subscriptions : List SubscriptionRow
  consumptions : List ConsumptionRow
deriving DecidableEq, Repr

/-- Target of a socketio.emit call: `all` models a broadcast with no `to=`
argument (delivered to every connected session), `room r` models `to=r`
(delivered to the sessions that joined room r). -/
inductive EmitTarget where
  | all : EmitTarget
  | room : Json → EmitTarget
deriving DecidableEq, Repr

/-- One socketio.emit performed by the server: event name, payload, target. -/
structure Emitted where
  event : String
  payload : Json
  target : EmitTarget
deriving DecidableEq, Repr

/-- Row shape returned by Broker.get_clients. -/
structure ClientView where
  consumer : Json
  topic : Json
  connected_at : Nat
deriving DecidableEq, Repr

/-- Row shape returned by Broker.get_messages; the message field is the
json.loads of the stored text (none would model a decode error). -/
structure MessageView where
  topic : Json
  message_id : Json
  message : Option Json
  producer : Json
  timestamp : Nat
deriving DecidableEq, Repr

/-- Row shape returned by Broker.get_consumptions. -/
structure ConsumptionView where
  consumer : Json
  topic : Json
  message_id : Json
  message : Option Json
  timestamp : Nat
deriving DecidableEq, Repr

/-- Outcome of the SQL statements of one Broker method: either the committed
result, or a sqlite3.Error raised before commit. -/
inductive SqlOutcome (α : Type) where
  | ok : α → SqlOutcome α
  | err : SqlOutcome α

/-- Oracle for the storage layer: when storageFails is set, the cursor raises
sqlite3.Error and nothing is committed; otherwise the computed result is
committed. -/
def sqlExec {α : Type} (storageFails : Bool) (a : α) : SqlOutcome α :=
  if storageFails then .err else .ok a

def insertTsDesc {α : Type} (ts : α → Nat) (x : α) : List α → List α
  | [] => [x]
  | y :: ys => if ts y < ts x then x :: y :: ys else y :: insertTsDesc ts x ys

/-- Stable sort by descending timestamp, modelling `ORDER BY timestamp DESC`. -/
def sortByTsDesc {α : Type} (ts : α → Nat) : List α → List α
  | [] => []
  | a :: as => insertTsDesc ts a (sortByTsDesc ts as)

/-- Modelled from the spec: the subscriptions table's uniqueness constraint.
The migration script (migrations/001_add_message_id_and_producer.sql) that
creates the tables is not in the source tree; spec section 3 gives Subscription
the natural key (session_id, topic), so the INSERT OR REPLACE issued by
register_subscription replaces exactly the rows agreeing on (sid, topic). -/
def upsertSubscription (rows : List SubscriptionRow) (row : SubscriptionRow) :
    List SubscriptionRow :=
  rows.filter (fun r => !(r.sid == row.sid && r.topic == row.topic)) ++ [row]

namespace Broker

/-- Broker.register_subscription (src/src/pubsub_ws.py lines 83-108):
INSERT OR REPLACE into subscriptions, commit, then emit new_client to all;
on sqlite3.Error: log, rollback, return normally. -/
def register_subscription (storageFails : Bool) (db : DB) (now : Nat)
    (sid : String) (consumer topic : Json) : DB × List Emitted :=
  match sqlExec storageFails
      { db with subscriptions := upsertSubscription db.subscriptions ⟨sid, consumer, topic, now⟩ } with
  | .ok db1 =>
      (db1, [⟨"new_client",
        Json.obj [("consumer", consumer), ("topic", topic), ("connected_at", Json.num now)],
        .all⟩])
  | .err => (db, [])

/-- Broker.unregister_client (src/src/pubsub_ws.py lines 110-128): SELECT the
session's (consumer, topic) rows, DELETE them, commit, then emit one
client_disconnected per removed row; on sqlite3.Error: log, rollback. -/
def unregister_client (storageFails : Bool) (db : DB) (sid : String) : DB × List Emitted :=
  match sqlExec storageFails
      (db.subscriptions.filter (fun r => r.sid == sid),
       db.subscriptions.filter (fun r => !(r.sid == sid))) with
  | .ok found_remaining =>
      ({ db with subscriptions := found_remaining.2 },
       found_remaining.1.map (fun r =>
         ⟨"client_disconnected", Json.obj [("consumer", r.consumer), ("topic", r.topic)], .all⟩))
  | .err => (db, [])

/-- Broker.save_message (src/src/pubsub_ws.py lines 130-162): INSERT the row
with message stored as json.dumps(message), commit, then emit new_message to
all sessions (no to= argument); on sqlite3.Error: log, rollback. -/
def save_message (storageFails : Bool) (db : DB) (now : Nat)
    (topic message_id : Json) (message : Json) (producer : Json) : DB × List Emitted :=
  match sqlExec storageFails
      { db with messages :=
          db.messages ++ [⟨topic, message_id, Json.dumps message, producer, now⟩] } with
  | .ok db1 =>
      (db1, [⟨"new_message",
        Json.obj [("topic", topic), ("message_id", message_id), ("message", message),
          ("producer", producer), ("timestamp", Json.num now)],
        .all⟩])
  | .err => (db, [])

/-- Broker.save_consumption (src/src/pubsub_ws.py lines 164-196): INSERT the
consumption row, commit, then emit new_consumption to all sessions; on
sqlite3.Error: log, rollback. -/
def save_consumption (storageFails : Bool) (db : DB) (now : Nat)
    (consumer topic message_id : Json) (message : Json) : DB × List Emitted :=
  match sqlExec storageFails
      { db with consumptions :=
          db.consumptions ++ [⟨consumer, topic, message_id, Json.dumps message, now⟩] } with
  | .ok db1 =>
      (db1, [⟨"new_consumption",
        Json.obj [("consumer", consumer), ("topic", topic), ("message_id", message_id),
          ("message", message), ("timestamp", Json.num now)],
        .all⟩])
  | .err => (db, [])

/-- Broker.get_clients (src/src/pubsub_ws.py lines 199-218): SELECT consumer,
topic, connected_at FROM subscriptions; on sqlite3.Error return []. -/
def get_clients (storageFails : Bool) (db : DB) : List ClientView :=
  match sqlExec storageFails
      (db.subscriptions.map (fun r => ClientView.mk r.consumer r.topic r.connected_at)) with
  | .ok out => out
  | .err => []

/-- Broker.get_messages (src/src/pubsub_ws.py lines 221-245): SELECT rows WHERE
message_id IS NOT NULL ORDER BY timestamp DESC, decoding message with
json.loads; on sqlite3.Error return []. -/
def get_messages (storageFails : Bool) (db : DB) : List MessageView :=
  match sqlExec storageFails
      ((sortByTsDesc (fun r : MessageRow => r.timestamp)
          (db.messages.filter (fun r => !(r.message_id == Json.null)))).map
        (fun r => MessageView.mk r.topic r.message_id (Json.loads r.message) r.producer r.timestamp)) with
  | .ok out => out
  | .err => []

/-- Broker.get_consumptions (src/src/pubsub_ws.py lines 248-272): SELECT rows
WHERE message_id IS NOT NULL ORDER BY timestamp DESC, decoding message with
json.loads; on sqlite3.Error return []. -/
def get_consumptions (storageFails : Bool) (db : DB) : List ConsumptionView :=
  match sqlExec storageFails
      ((sortByTsDesc (fun r : ConsumptionRow => r.timestamp)
          (db.consumptions.filter (fun r => !(r.message_id == Json.null)))).map
        (fun r => ConsumptionView.mk r.consumer r.topic r.message_id (Json.loads r.message) r.timestamp)) with
  | .ok out => out
  | .err => []

end Broker

structure HttpResponse where
  status : Nat
  body : Json
deriving DecidableEq, Repr

/-- data.get(k) on the request body followed by the uses the route makes of it:
a missing key yields Python None, modelled by Json.null (a present JSON null
also arrives as None, so the two are indistinguishable, exactly as in the
code). -/
def getJ (data : List (String × Json)) (k : String) : Json :=
  (data.lookup k).getD Json.null

/-- The POST /publish route (src/src/pubsub_ws.py lines 281-301): extract the
four fields, reject with 400 and the fixed error body when any is falsy,
otherwise Broker.save_message then one `message` emission scoped to the topic
room, answering 200. -/
def publish (storageFails : Bool) (db : DB) (now : Nat) (data : List (String × Json)) :
    DB × List Emitted × HttpResponse :=
  let topic := getJ data "topic"
  let message_id := getJ data "message_id"
  let message := getJ data "message"
  let producer := getJ data "producer"
  if !(pyTruthy topic && pyTruthy message_id && pyTruthy message && pyTruthy producer) then
    (db, [],
      ⟨400, Json.obj [("status", Json.str "error"),
        ("message", Json.str "Missing topic, message_id, message, or producer")]⟩)
  else
    let res := Broker.save_message storageFails db now topic message_id message producer
    (res.1,
     res.2 ++ [⟨"message",
       Json.obj [("topic", topic), ("message_id", message_id), ("message", message),
         ("producer", producer)],
       .room topic⟩],
     ⟨200, Json.obj [("status", Json.str "ok")]⟩)

/-- Whether session sid receives an emission, given which rooms it has joined:
a broadcast reaches every session, a room emission only the rooms' members. -/
def receivesB (joined : String → Json → Bool) (sid : String) (e : Emitted) : Bool :=
  match e.target with
  | .all => true
  | .room r => joined sid r

def BASE_URL : String := "http://localhost:5000"

/-- One HTTP POST issued by the client SDK via requests.post(url, json=body). -/
structure HttpPost where
  url : String
  body : Json
deriving DecidableEq, Repr

namespace PubSubClient

/-- PubSubClient.publish (src/src/client.py lines 72-89): one requests.post to
BASE_URL/publish carrying topic, message, the client's own consumer_name as
producer, and message_id. -/
def publish (consumer_name : String) (topic message message_id : Json) : List HttpPost :=
  [⟨BASE_URL ++ "/publish",
    Json.obj [("topic", topic), ("message", message), ("producer", Json.str consumer_name),
      ("message_id", message_id)]⟩]

end PubSubClient

/-- One socketio emit issued by a client. -/
structure SioEmit where
  event : String
  payload : Json
deriving DecidableEq, Repr

namespace LibPubSubClient

/-- Handler dispatch of the lib client: the registered handler for the topic is
invoked with the message, and a topic with no handler is logged and dropped
(src/lib/pubsub_client.py lines 66-69). -/
def handlerCalls (handlers : List String) (topic message : Json) : List (String × Json) :=
  match topic with
  | Json.str s => if handlers.contains s then [(s, message)] else []
  | _ => []

/-- PubSubClient.on_message of the lib client (src/lib/pubsub_client.py lines
53-77): read data (KeyError on a missing topic or message, modelled by none),
dispatch to the registered handler when one exists, then unconditionally emit
one `consumed` acknowledgment. -/
def on_message (consumer : String) (handlers : List String) (data : List (String × Json)) :
    Option (List (String × Json) × List SioEmit) :=
  match data.lookup "topic", data.lookup "message" with
  | some topic, some message =>
    some (handlerCalls handlers topic message,
      [⟨"consumed",
        Json.obj [("consumer", Json.str consumer), ("topic", topic),
          ("message_id", (data.lookup "message_id").getD Json.null), ("message", message)]⟩])
  | _, _ => none

end LibPubSubClient

def dbEmpty : DB := ⟨[], [], []⟩

/-- Room membership used by the C2 counterexample: session s2 has joined only
the news room. -/
def joinedNews : String → Json → Bool := fun sid r => sid == "s2" && r == Json.str "news"

theorem stripPre_self : ∀ (ps cs : List Char), stripPre ps (ps ++ cs) = some cs
  | [], cs => rfl
  | p :: ps, cs => by simp [stripPre, stripPre_self ps cs]

theorem readDigits_stop {rest : List Char} (h : noDigit rest = true) (m : Nat) :
    readDigits m rest = (m, rest) := by
  cases rest with
  | nil => rfl
  | cons c cs =>
    simp [noDigit] at h
    simp [readDigits, h]

theorem digitChar_isDigit {m : Nat} (h : m < 10) : (digitChar m).isDigit = true := by
  interval_cases m <;> decide

theorem digitChar_val {m : Nat} (h : m < 10) : (digitChar m).toNat - 48 = m := by
  interval_cases m <;> decide

theorem readDigits_aux : ∀ (fuel n acc : Nat) (rest : List Char), n ≤ fuel →
    readDigits acc (natDigitsAux fuel n ++ rest)
      = readDigits (acc * 10 ^ (natDigitsAux fuel n).length + n) rest := by
  intro fuel
  induction fuel with
  | zero =>
    intro n acc rest hn
    interval_cases n
    simp [natDigitsAux, readDigits]
  | succ fuel ih =>
    intro n acc rest hn
    by_cases h0 : n = 0
    · subst h0; simp [natDigitsAux]
    · have hlt : n / 10 < n := Nat.div_lt_self (Nat.pos_of_ne_zero h0) (by norm_num)
      have hle : n / 10 ≤ fuel := by omega
      have hd : (digitChar (n % 10)).isDigit = true := digitChar_isDigit (Nat.mod_lt n (by norm_num))
      have hv : (digitChar (n % 10)).toNat - 48 = n % 10 := digitChar_val (Nat.mod_lt n (by norm_num))
      simp only [natDigitsAux, h0, if_false, List.append_assoc, List.cons_append, List.nil_append]
      rw [ih (n / 10) acc (digitChar (n % 10) :: rest) hle]
      simp only [readDigits, hd, if_true, hv]
      have : (acc * 10 ^ (natDigitsAux fuel (n / 10)).length + n / 10) * 10 + n % 10
           = acc * 10 ^ ((natDigitsAux fuel (n / 10)).length + 1) + n := by
        rw [pow_succ]
        have := Nat.div_add_mod n 10
        ring_nf
        omega
      rw [this]
      congr 1
      simp [List.length_append]

theorem readDigits_natChars (n : Nat) (rest : List Char) (h : noDigit rest = true) :
    readDigits 0 (natChars n ++ rest) = (n, rest) := by
  by_cases h0 : n = 0
  · subst h0
    simp [natChars, readDigits, readDigits_stop h]
  · simp only [natChars, h0, if_false]
    rw [readDigits_aux n n 0 rest (le_refl n)]
    simp [readDigits_stop h]

theorem natDigitsAux_digits : ∀ (fuel n : Nat), ∀ c ∈ natDigitsAux fuel n, c.isDigit = true := by
  intro fuel
  induction fuel with
  | zero => intro n c hc; simp [natDigitsAux] at hc
  | succ fuel ih =>
    intro n c hc
    by_cases h0 : n = 0
    · subst h0; simp [natDigitsAux] at hc
    · simp only [natDigitsAux, h0, if_false, List.mem_append, List.mem_singleton] at hc
      rcases hc with hc | hc
      · exact ih _ c hc
      · subst hc; exact digitChar_isDigit (Nat.mod_lt n (by norm_num))

theorem natDigitsAux_ne_nil (fuel n : Nat) (h0 : n ≠ 0) (hle : n ≤ fuel) :
    natDigitsAux fuel n ≠ [] := by
  cases fuel with
  | zero => omega
  | succ fuel => simp [natDigitsAux, h0]

theorem natChars_shape (n : Nat) : ∃ d ds, natChars n = d :: ds ∧ d.isDigit = true := by
  by_cases h0 : n = 0
  · subst h0; exact ⟨'0', [], rfl, by decide⟩
  · have hne : natChars n ≠ [] := by
      simp only [natChars, h0, if_false]
      exact natDigitsAux_ne_nil n n h0 (le_refl n)
    rcases List.exists_cons_of_ne_nil hne with ⟨d, ds, hd⟩
    refine ⟨d, ds, hd, ?_⟩
    have : d ∈ natChars n := by rw [hd]; exact List.mem_cons_self d ds
    simp only [natChars, h0, if_false] at this
    exact natDigitsAux_digits n n d this

theorem parseStrBody_cons (c : Char) (rest acc : List Char) :
    parseStrBody (c :: rest) acc =
      (if c = '\\' then parseStrEsc rest acc
      else if c = '"' then some (String.mk acc.reverse, rest)
      else parseStrBody rest (c :: acc)) := by
  simp [parseStrBody]

theorem parseStrBody_escape : ∀ (cs acc rest : List Char),
    parseStrBody (escStr cs ++ ('"' :: rest)) acc = some (String.mk (acc.reverse ++ cs), rest) := by
  intro cs
  induction cs with
  | nil =>
    intro acc rest
    rw [escStr, List.nil_append, parseStrBody_cons]
    rw [if_neg (by decide), if_pos rfl]
    simp
  | cons c cs ih =>
    intro acc rest
    by_cases hc : c = '"' ∨ c = '\\'
    · have he : escStr (c :: cs) = '\\' :: (c :: escStr cs) := by
        simp [escStr, escC, hc]
      rw [he, List.cons_append, List.cons_append, parseStrBody_cons, if_pos rfl]
      rw [parseStrEsc, ih (c :: acc) rest]
      simp
    · push_neg at hc
      have he : escStr (c :: cs) = c :: escStr cs := by
        simp [escStr, escC, hc.1, hc.2]
      rw [he, List.cons_append, parseStrBody_cons, if_neg hc.2, if_neg hc.1]
      rw [ih (c :: acc) rest]
      simp
theorem jsize_pos (j : Json) : 1 ≤ jsize j := by
  cases j <;> simp [jsize]

theorem isDigit_ne {c : Char} (h : c.isDigit = true) :
    c ≠ 'n' ∧ c ≠ 't' ∧ c ≠ 'f' ∧ c ≠ '"' ∧ c ≠ '[' ∧ c ≠ lbrace ∧ c ≠ '-' ∧ c ≠ ']' := by
  refine ⟨?_, ?_, ?_, ?_, ?_, ?_, ?_, ?_⟩ <;> (rintro rfl; revert h; decide)

theorem dumpsChars_shape (j : Json) : ∃ c cs, dumpsChars j = c :: cs ∧ c ≠ ']' := by
  cases j with
  | null => exact ⟨'n', ['u', 'l', 'l'], rfl, by decide⟩
  | bool b => cases b
              · exact ⟨'f', ['a', 'l', 's', 'e'], rfl, by decide⟩
              · exact ⟨'t', ['r', 'u', 'e'], rfl, by decide⟩
  | num i =>
      by_cases hi : i < 0
      · exact ⟨'-', natChars i.natAbs, by simp [dumpsChars, intChars, hi], by decide⟩
      · obtain ⟨d, ds, hds, hdig⟩ := natChars_shape i.natAbs
        refine ⟨d, ds, by simp [dumpsChars, intChars, hi, hds], (isDigit_ne hdig).2.2.2.2.2.2.2⟩
  | str s => exact ⟨'"', _, rfl, by decide⟩
  | arr xs => cases xs
              · exact ⟨'[', _, rfl, by decide⟩
              · exact ⟨'[', _, rfl, by decide⟩
  | obj kvs => cases kvs
               · exact ⟨lbrace, _, rfl, by decide⟩
               · exact ⟨lbrace, _, rfl, by decide⟩

theorem noDigit_items (xs : List Json) (rest : List Char) :
    noDigit (dumpsItems xs ++ (']' :: rest)) = true := by
  cases xs <;> simp [dumpsItems, noDigit]

theorem noDigit_fields (kvs : List (String × Json)) (rest : List Char) :
    noDigit (dumpsFields kvs ++ (rbrace :: rest)) = true := by
  cases kvs <;> simp [dumpsFields, noDigit] <;> decide

theorem mk_data (s : String) : String.mk s.data = s := by cases s; rfl

theorem readDigits_shift {d : Char} (hd : d.isDigit = true) (cs : List Char) :
    readDigits 0 (d :: cs) = readDigits (d.toNat - 48) cs := by
  simp [readDigits, hd]

theorem parse_num_core {n : Nat} {d : Char} {ds rest : List Char}
    (hds : natChars n = d :: ds) (hnd : noDigit rest = true) :
    readDigits (d.toNat - 48) (ds ++ rest) = (n, rest) := by
  have h := readDigits_natChars n rest hnd
  rw [hds] at h
  have hdig : d.isDigit = true := by
    obtain ⟨d2, ds2, hds2, hdig2⟩ := natChars_shape n
    rw [hds] at hds2
    cases hds2
    exact hdig2
  rw [List.cons_append, readDigits_shift hdig] at h
  exact h

theorem parse_dumps (fuel : Nat) :
    (∀ (j : Json) (rest : List Char), jsize j ≤ fuel → noDigit rest = true →
      parseJ fuel (dumpsChars j ++ rest) = some (j, rest)) ∧
    (∀ (x : Json) (xs : List Json) (rest : List Char), jsize x + 1 + isize xs ≤ fuel →
      parseItems fuel (dumpsChars x ++ (dumpsItems xs ++ (']' :: rest))) = some (x :: xs, rest)) ∧
    (∀ (k : String) (v : Json) (kvs : List (String × Json)) (rest : List Char),
      jsize v + 1 + fsize kvs ≤ fuel →
      parseFields fuel (dumpsField (k, v) ++ (dumpsFields kvs ++ (rbrace :: rest)))
        = some ((k, v) :: kvs, rest)) := by
  induction fuel with
  | zero =>
    refine ⟨?_, ?_, ?_⟩
    · intro j rest hsz _
      have := jsize_pos j
      omega
    · intro x xs rest hsz
      have := jsize_pos x
      omega
    · intro k v kvs rest hsz
      have := jsize_pos v
      omega
  | succ fuel ih =>
    obtain ⟨ihJ, ihI, ihF⟩ := ih
    refine ⟨?_, ?_, ?_⟩
    · intro j rest hsz hnd
      cases j with
      | null => simp [dumpsChars, nullChars, parseJ, stripPre]
      | bool b => cases b <;> simp [dumpsChars, trueChars, falseChars, parseJ, stripPre]
      | str s =>
        simp only [dumpsChars, List.cons_append, List.append_assoc, List.singleton_append]
        simp [parseJ, parseStrBody_escape, mk_data]
      | num i =>
        by_cases hi : i < 0
        · obtain ⟨d, ds, hds, hdig⟩ := natChars_shape i.natAbs
          have hcoe : ((i.natAbs : Nat) : Int) = -i := by omega
          simp only [dumpsChars, intChars, if_pos hi, hds, List.cons_append]
          rw [parseJ]
          rw [if_neg (by decide), if_neg (by decide), if_neg (by decide), if_neg (by decide),
              if_neg (by decide), if_neg (by decide), if_pos rfl]
          simp [parseNum, hdig, parse_num_core hds hnd, hcoe]
        · obtain ⟨d, ds, hds, hdig⟩ := natChars_shape i.natAbs
          have hne := isDigit_ne hdig
          have hcoe : ((i.natAbs : Nat) : Int) = i := by omega
          simp only [dumpsChars, intChars, if_neg hi, hds, List.cons_append]
          rw [parseJ]
          rw [if_neg hne.1, if_neg hne.2.1, if_neg hne.2.2.1, if_neg hne.2.2.2.1,
              if_neg hne.2.2.2.2.1, if_neg hne.2.2.2.2.2.1, if_neg hne.2.2.2.2.2.2.1,
              if_pos hdig]
          simp [parseNum, parse_num_core hds hnd, hcoe]
      | arr xs =>
        cases xs with
        | nil => simp [dumpsChars, parseJ]
        | cons x xs =>
          obtain ⟨c2, cs2, hc2, hne2⟩ := dumpsChars_shape x
          have hsz2 : jsize x + 1 + isize xs ≤ fuel := by
            simp only [jsize, isize] at hsz
            omega
          simp only [dumpsChars, List.cons_append, List.append_assoc, List.singleton_append,
            List.nil_append]
          rw [parseJ]
          rw [if_neg (by decide), if_neg (by decide), if_neg (by decide), if_neg (by decide),
              if_pos rfl]
          rw [hc2]
          simp only [List.cons_append, List.head?_cons]
          rw [if_neg (by simp [hne2])]
          rw [← List.cons_append, ← hc2, ihI x xs rest hsz2]
          simp
      | obj kvs =>
        cases kvs with
        | nil => simp [dumpsChars, parseJ, lbrace, rbrace]
        | cons kv kvs =>
          obtain ⟨k, v⟩ := kv
          have hsz2 : jsize v + 1 + fsize kvs ≤ fuel := by
            simp only [jsize, fsize] at hsz
            omega
          simp only [dumpsChars, dumpsField, List.cons_append, List.append_assoc,
            List.singleton_append, List.nil_append]
          rw [parseJ]
          rw [if_neg (by decide), if_neg (by decide), if_neg (by decide), if_neg (by decide),
              if_neg (by decide), if_pos rfl]
          simp only [List.cons_append, List.head?_cons]
          rw [if_neg (by decide)]
          have hf := ihF k v kvs rest hsz2
          simp only [dumpsField, List.cons_append, List.append_assoc, List.singleton_append,
            List.nil_append] at hf
          rw [hf]
          simp
    · intro x xs rest hsz
      have hszx : jsize x ≤ fuel := by
        have := jsize_pos x
        omega
      have hnd : noDigit (dumpsItems xs ++ (']' :: rest)) = true := noDigit_items xs rest
      rw [parseItems]
      rw [ihJ x (dumpsItems xs ++ (']' :: rest)) hszx hnd]
      cases xs with
      | nil => simp [dumpsItems, step2]
      | cons y ys =>
        have hszy : jsize y + 1 + isize ys ≤ fuel := by
          simp only [isize] at hsz
          have := jsize_pos x
          omega
        simp only [dumpsItems, List.cons_append, List.append_assoc, step2]
        rw [if_pos trivial]
        rw [ihI y ys rest hszy]
        simp
    · intro k v kvs rest hsz
      have hszv : jsize v ≤ fuel := by
        have := jsize_pos v
        omega
      have hnd : noDigit (dumpsFields kvs ++ (rbrace :: rest)) = true := noDigit_fields kvs rest
      simp only [dumpsField, List.cons_append, List.append_assoc]
      rw [parseFields]
      rw [if_pos rfl]
      rw [parseStrBody_escape]
      simp only [List.reverse_nil, List.nil_append, mk_data, step2]
      rw [if_pos trivial]
      rw [ihJ v (dumpsFields kvs ++ (rbrace :: rest)) hszv hnd]
      cases kvs with
      | nil =>
        simp only [dumpsFields, List.nil_append, step2]
        rw [if_neg (by decide), if_pos trivial]
      | cons kv2 kvs2 =>
        obtain ⟨k2, v2⟩ := kv2
        have hsz2 : jsize v2 + 1 + fsize kvs2 ≤ fuel := by
          simp only [fsize] at hsz
          have := jsize_pos v
          omega
        simp only [dumpsFields, List.cons_append, List.append_assoc, step2]
        rw [if_pos trivial]
        rw [ihF k2 v2 kvs2 rest hsz2]
        simp

mutual

theorem jsize_le : ∀ (j : Json), jsize j ≤ (dumpsChars j).length
  | .null => by simp [jsize, dumpsChars, nullChars]
  | .bool b => by cases b <;> simp [jsize, dumpsChars, trueChars, falseChars]
  | .num i => by
      obtain ⟨c, cs, hc, _⟩ := dumpsChars_shape (.num i)
      simp [jsize, hc]
  | .str s => by simp [jsize, dumpsChars]
  | .arr [] => by simp [jsize, isize, dumpsChars]
  | .arr (x :: xs) => by
      have h1 := jsize_le x
      have h2 := items_le xs
      simp only [jsize, isize, dumpsChars, List.length_cons, List.length_append,
        List.length_singleton]
      omega
  | .obj [] => by simp [jsize, fsize, dumpsChars]
  | .obj ((k, v) :: kvs) => by
      have h1 := jsize_le v
      have h2 := fields_le kvs
      simp only [jsize, fsize, dumpsChars, dumpsField, List.length_cons, List.length_append,
        List.length_singleton]
      omega

theorem items_le : ∀ (xs : List Json), isize xs ≤ (dumpsItems xs).length
  | [] => by simp [isize, dumpsItems]
  | x :: xs => by
      have h1 := jsize_le x
      have h2 := items_le xs
      simp only [isize, dumpsItems, List.length_cons, List.length_append]
      omega

theorem fields_le : ∀ (kvs : List (String × Json)), fsize kvs ≤ (dumpsFields kvs).length
  | [] => by simp [fsize, dumpsFields]
  | (k, v) :: kvs => by
      have h1 := jsize_le v
      have h2 := fields_le kvs
      simp only [fsize, dumpsFields, dumpsField, List.length_cons, List.length_append]
      omega

end

theorem loads_dumps (j : Json) : Json.loads (Json.dumps j) = some j := by
  have hsz : jsize j ≤ (dumpsChars j).length + 1 := le_trans (jsize_le j) (Nat.le_succ _)
  have h := (parse_dumps ((dumpsChars j).length + 1)).1 j [] hsz rfl
  rw [List.append_nil] at h
  simp only [Json.loads, Json.dumps, h]
theorem insertTsDesc_perm {α : Type} (ts : α → Nat) (a : α) :
    ∀ l : List α, List.Perm (insertTsDesc ts a l) (a :: l) := by
  intro l
  induction l with
  | nil => simp [insertTsDesc]
  | cons b bs ih =>
    by_cases h : ts b < ts a
    · simp [insertTsDesc, h]
    · simp only [insertTsDesc, h, if_false]
      exact List.Perm.trans (List.Perm.cons b ih) (List.Perm.swap a b bs)

theorem sortByTsDesc_perm {α : Type} (ts : α → Nat) :
    ∀ l : List α, List.Perm (sortByTsDesc ts l) l := by
  intro l
  induction l with
  | nil => simp [sortByTsDesc]
  | cons a as ih =>
    exact List.Perm.trans (insertTsDesc_perm ts a _) (List.Perm.cons a ih)
theorem filter_not_filter {α : Type} (p : α → Bool) (l : List α) :
    (l.filter (fun a => !(p a))).filter p = [] := by
  rw [List.filter_eq_nil_iff]
  intro a ha
  have h := (List.mem_filter.mp ha).2
  simp at h
  simp [h]

/-- C3: every Broker write operation under a storage error is caught and rolled back
(state unchanged, no notification emitted) while still returning normally, and every
Broker read operation under a storage error returns the empty list. -/
theorem c3_storage_errors_swallowed :
    ∀ (db : DB) (now : Nat) (sid : String) (consumer topic message_id payload producer : Json),
      Broker.register_subscription true db now sid consumer topic = (db, []) ∧
      Broker.unregister_client true db sid = (db, []) ∧
      Broker.save_message true db now topic message_id payload producer = (db, []) ∧
      Broker.save_consumption true db now consumer topic message_id payload = (db, []) ∧
      Broker.get_clients true db = [] ∧
      Broker.get_messages true db = [] ∧
      Broker.get_consumptions true db = [] := by
  intro db now sid consumer topic message_id payload producer
  exact ⟨rfl, rfl, rfl, rfl, rfl, rfl, rfl⟩

/-- C4: registering the same (sid, topic) twice leaves exactly one subscription row for
that key, carrying the second call's connected_at (last-write-wins upsert), and
listSubscribers reflects the stored rows. -/
theorem c4_upsert_idempotent :
    ∀ (db : DB) (now1 now2 : Nat) (sid : String) (consumer1 consumer2 topic : Json),
      ((Broker.register_subscription false
          (Broker.register_subscription false db now1 sid consumer1 topic).1
          now2 sid consumer2 topic).1).subscriptions.filter
        (fun r => r.sid == sid && r.topic == topic)
        = [⟨sid, consumer2, topic, now2⟩] ∧
      Broker.get_clients false
          ((Broker.register_subscription false
              (Broker.register_subscription false db now1 sid consumer1 topic).1
              now2 sid consumer2 topic).1)
        = ((Broker.register_subscription false
            (Broker.register_subscription false db now1 sid consumer1 topic).1
            now2 sid consumer2 topic).1).subscriptions.map
            (fun r => ClientView.mk r.consumer r.topic r.connected_at) := by
  intro db now1 now2 sid consumer1 consumer2 topic
  constructor
  · simp only [Broker.register_subscription, upsertSubscription, sqlExec,
      if_neg (Bool.false_ne_true)]
    rw [List.filter_append]
    rw [filter_not_filter (fun r : SubscriptionRow => r.sid == sid && r.topic == topic)]
    simp
  · rfl

/-- C5: unregistering a session deletes exactly its subscription rows and emits one
client_disconnected notification per removed (consumer, topic) pair; with no
subscriptions it is a no-op that emits nothing. -/
theorem c5_unregister_exact :
    ∀ (db : DB) (sid : String),
      ((Broker.unregister_client false db sid).1).subscriptions
          = db.subscriptions.filter (fun r => !(r.sid == sid)) ∧
      ((Broker.unregister_client false db sid).1).messages = db.messages ∧
      ((Broker.unregister_client false db sid).1).consumptions = db.consumptions ∧
      (Broker.unregister_client false db sid).2
          = (db.subscriptions.filter (fun r => r.sid == sid)).map
              (fun r => ⟨"client_disconnected",
                Json.obj [("consumer", r.consumer), ("topic", r.topic)], EmitTarget.all⟩) ∧
      ((Broker.unregister_client false db sid).2).length
          = (db.subscriptions.filter (fun r => r.sid == sid)).length ∧
      (db.subscriptions.filter (fun r => r.sid == sid) = [] →
        (Broker.unregister_client false db sid).1 = db ∧
        (Broker.unregister_client false db sid).2 = []) := by
  intro db sid
  refine ⟨rfl, rfl, rfl, rfl, by simp [Broker.unregister_client, sqlExec], ?_⟩
  intro h
  have hall : ∀ r ∈ db.subscriptions, (r.sid == sid) = false := by
    intro r hr
    have h2 := List.filter_eq_nil_iff.mp h r hr
    simpa using h2
  constructor
  · simp only [Broker.unregister_client, sqlExec, if_neg (Bool.false_ne_true)]
    have hkeep : db.subscriptions.filter (fun r => !(r.sid == sid)) = db.subscriptions := by
      rw [List.filter_eq_self]
      intro a ha
      simp [hall a ha]
    rw [hkeep]
  · simp only [Broker.unregister_client, sqlExec, if_neg (Bool.false_ne_true)]
    rw [h]
    rfl

/-- C5 witness at a concrete store: session s1 holds two subscriptions, s2 none. -/
theorem c5_witness :
    ((Broker.unregister_client false
        ⟨[], [⟨"s1", Json.str "alice", Json.str "sport", 3⟩,
              ⟨"s1", Json.str "alice", Json.str "news", 4⟩], []⟩ "s1").2).length
      = ((⟨[], [⟨"s1", Json.str "alice", Json.str "sport", 3⟩,
              ⟨"s1", Json.str "alice", Json.str "news", 4⟩], []⟩ : DB).subscriptions.filter
          (fun r => r.sid == "s1")).length ∧
    (Broker.unregister_client false
        ⟨[], [⟨"s1", Json.str "alice", Json.str "sport", 3⟩,
              ⟨"s1", Json.str "alice", Json.str "news", 4⟩], []⟩ "s2").1
      = ⟨[], [⟨"s1", Json.str "alice", Json.str "sport", 3⟩,
              ⟨"s1", Json.str "alice", Json.str "news", 4⟩], []⟩ := by
  constructor
  · exact (c5_unregister_exact
      ⟨[], [⟨"s1", Json.str "alice", Json.str "sport", 3⟩,
            ⟨"s1", Json.str "alice", Json.str "news", 4⟩], []⟩ "s1").2.2.2.2.1
  · exact ((c5_unregister_exact
      ⟨[], [⟨"s1", Json.str "alice", Json.str "sport", 3⟩,
            ⟨"s1", Json.str "alice", Json.str "news", 4⟩], []⟩ "s2").2.2.2.2.2 (by decide)).1

/-- C6: POST publish with a required field absent yields HTTP 400 with the exact error
body, leaves the store unchanged and emits nothing. -/
theorem c6_missing_field_400 :
    ∀ (storageFails : Bool) (db : DB) (now : Nat) (data : List (String × Json)),
      (data.lookup "topic" = none ∨ data.lookup "message_id" = none ∨
       data.lookup "message" = none ∨ data.lookup "producer" = none) →
      publish storageFails db now data =
        (db, [],
          ⟨400, Json.obj [("status", Json.str "error"),
            ("message", Json.str "Missing topic, message_id, message, or producer")]⟩) := by
  intro sf db now data h
  rcases h with h | h | h | h <;> simp [publish, getJ, h, pyTruthy]

/-- C6 witness: a publish body missing message_id is rejected with 400. -/
theorem c6_witness :
    (([("topic", Json.str "sport"), ("message", Json.str "x"),
        ("producer", Json.str "bot")] : List (String × Json)).lookup "message_id" = none) ∧
    publish false dbEmpty 0
        [("topic", Json.str "sport"), ("message", Json.str "x"), ("producer", Json.str "bot")] =
      (dbEmpty, [],
        ⟨400, Json.obj [("status", Json.str "error"),
          ("message", Json.str "Missing topic, message_id, message, or producer")]⟩) :=
  ⟨by decide, c6_missing_field_400 false dbEmpty 0 _ (Or.inr (Or.inl (by decide)))⟩

/-- C9: a publish body in which all four fields are present but at least one is falsy is
rejected exactly like a missing field: HTTP 400, same error body, store unchanged
(the guard tests truthiness of the extracted values, not key presence). -/
theorem c9_falsy_field_400 :
    ∀ (storageFails : Bool) (db : DB) (now : Nat) (data : List (String × Json)),
      (data.lookup "topic").isSome = true →
      (data.lookup "message_id").isSome = true →
      (data.lookup "message").isSome = true →
      (data.lookup "producer").isSome = true →
      (pyTruthy (getJ data "topic") = false ∨ pyTruthy (getJ data "message_id") = false ∨
       pyTruthy (getJ data "message") = false ∨ pyTruthy (getJ data "producer") = false) →
      publish storageFails db now data =
        (db, [],
          ⟨400, Json.obj [("status", Json.str "error"),
            ("message", Json.str "Missing topic, message_id, message, or producer")]⟩) := by
  intro sf db now data _ _ _ _ h
  rcases h with h | h | h | h <;> simp [publish, h]

/-- C9 witness: all four fields present, message is the empty string (falsy). -/
theorem c9_witness :
    (([("topic", Json.str "sport"), ("message_id", Json.str "m1"), ("message", Json.str ""),
        ("producer", Json.str "bot")] : List (String × Json)).lookup "message").isSome = true ∧
    publish false dbEmpty 0
        [("topic", Json.str "sport"), ("message_id", Json.str "m1"), ("message", Json.str ""),
         ("producer", Json.str "bot")] =
      (dbEmpty, [],
        ⟨400, Json.obj [("status", Json.str "error"),
          ("message", Json.str "Missing topic, message_id, message, or producer")]⟩) :=
  ⟨by decide,
   c9_falsy_field_400 false dbEmpty 0 _ (by decide) (by decide) (by decide) (by decide)
     (Or.inr (Or.inr (Or.inl (by decide))))⟩

/-- C8: the SDK publish issues exactly one HTTP POST to the publish endpoint whose JSON
body carries the given topic, payload and message_id, with the client's own consumer
name as the producer field. -/
theorem c8_publish_single_post :
    ∀ (consumer_name : String) (topic message message_id : Json),
      PubSubClient.publish consumer_name topic message message_id =
        [⟨BASE_URL ++ "/publish",
          Json.obj [("topic", topic), ("message", message),
            ("producer", Json.str consumer_name), ("message_id", message_id)]⟩] ∧
      (PubSubClient.publish consumer_name topic message message_id).length = 1 := by
  intro c t m i
  exact ⟨rfl, rfl⟩

/-- C10: for every delivered message event the lib client acknowledges consumption
exactly once, whether or not a handler is registered for the topic. -/
theorem c10_consumed_ack_unconditional :
    ∀ (consumer : String) (handlers : List String) (data : List (String × Json))
      (topic message : Json),
      data.lookup "topic" = some topic →
      data.lookup "message" = some message →
      LibPubSubClient.on_message consumer handlers data =
        some (LibPubSubClient.handlerCalls handlers topic message,
          [⟨"consumed",
            Json.obj [("consumer", Json.str consumer), ("topic", topic),
              ("message_id", (data.lookup "message_id").getD Json.null),
              ("message", message)]⟩]) := by
  intro consumer handlers data topic message ht hm
  simp [LibPubSubClient.on_message, ht, hm]

/-- C10 witness: a message on a topic with no registered handler (empty handler map) is
still acknowledged as consumed. -/
theorem c10_witness :
    (([("topic", Json.str "sport"), ("message", Json.str "goal")] : List (String × Json)).lookup
        "topic" = some (Json.str "sport")) ∧
    LibPubSubClient.on_message "alice" []
        [("topic", Json.str "sport"), ("message", Json.str "goal")] =
      some ([],
        [⟨"consumed",
          Json.obj [("consumer", Json.str "alice"), ("topic", Json.str "sport"),
            ("message_id", Json.null), ("message", Json.str "goal")]⟩]) :=
  ⟨by decide,
   by
    have h := c10_consumed_ack_unconditional "alice" []
      [("topic", Json.str "sport"), ("message", Json.str "goal")]
      (Json.str "sport") (Json.str "goal") (by decide) (by decide)
    simpa using h⟩

/-- C2 counterexample: session s2 is joined only to the news room (not subscribed to
sport), yet among the emissions of a publish to sport exactly one reaches s2 - the
new_message notification, which goes out on the global channel. -/
theorem c2_counterexample :
    joinedNews "s2" (Json.str "sport") = false ∧
    ((publish false dbEmpty 0
        [("topic", Json.str "sport"), ("message_id", Json.str "m1"),
         ("message", Json.str "hello"), ("producer", Json.str "bot")]).2.1.filter
      (receivesB joinedNews "s2")).map Emitted.event = ["new_message"] := by
  decide

/-- C2 amended: a successful publish emits exactly two notifications - the message event
scoped to the topic room (received by a session only if it joined that room), and the
new_message event on the global channel (received by every session). -/
theorem c2_amended_publish_emissions :
    ∀ (db : DB) (now : Nat) (data : List (String × Json)),
      pyTruthy (getJ data "topic") = true →
      pyTruthy (getJ data "message_id") = true →
      pyTruthy (getJ data "message") = true →
      pyTruthy (getJ data "producer") = true →
      (publish false db now data).2.1 =
        [⟨"new_message",
          Json.obj [("topic", getJ data "topic"), ("message_id", getJ data "message_id"),
            ("message", getJ data "message"), ("producer", getJ data "producer"),
            ("timestamp", Json.num now)], EmitTarget.all⟩,
         ⟨"message",
          Json.obj [("topic", getJ data "topic"), ("message_id", getJ data "message_id"),
            ("message", getJ data "message"), ("producer", getJ data "producer")],
          EmitTarget.room (getJ data "topic")⟩] ∧
      (∀ (joined : String → Json → Bool) (sid : String),
        receivesB joined sid
            ⟨"new_message",
              Json.obj [("topic", getJ data "topic"), ("message_id", getJ data "message_id"),
                ("message", getJ data "message"), ("producer", getJ data "producer"),
                ("timestamp", Json.num now)], EmitTarget.all⟩ = true ∧
        receivesB joined sid
            ⟨"message",
              Json.obj [("topic", getJ data "topic"), ("message_id", getJ data "message_id"),
                ("message", getJ data "message"), ("producer", getJ data "producer")],
              EmitTarget.room (getJ data "topic")⟩ = joined sid (getJ data "topic")) := by
  intro db now data h1 h2 h3 h4
  constructor
  · simp [publish, h1, h2, h3, h4, Broker.save_message, sqlExec]
  · intro joined sid
    exact ⟨rfl, rfl⟩

/-- C2 amended witness at a concrete publish body. -/
theorem c2_amended_witness :
    pyTruthy (getJ [(("topic" : String), Json.str "sport"), ("message_id", Json.str "m1"),
        ("message", Json.str "hello"), ("producer", Json.str "bot")] "topic") = true ∧
    (publish false dbEmpty 7
        [("topic", Json.str "sport"), ("message_id", Json.str "m1"),
         ("message", Json.str "hello"), ("producer", Json.str "bot")]).2.1 =
      [⟨"new_message",
        Json.obj [("topic", Json.str "sport"), ("message_id", Json.str "m1"),
          ("message", Json.str "hello"), ("producer", Json.str "bot"),
          ("timestamp", Json.num 7)], EmitTarget.all⟩,
       ⟨"message",
        Json.obj [("topic", Json.str "sport"), ("message_id", Json.str "m1"),
          ("message", Json.str "hello"), ("producer", Json.str "bot")],
        EmitTarget.room (Json.str "sport")⟩] := by
  refine ⟨by decide, ?_⟩
  have h := (c2_amended_publish_emissions dbEmpty 7
    [("topic", Json.str "sport"), ("message_id", Json.str "m1"),
     ("message", Json.str "hello"), ("producer", Json.str "bot")]
    (by decide) (by decide) (by decide) (by decide)).1
  simpa using h

/-- C1: publishing a fresh message_id and then listing messages yields exactly one entry
with that id, and its topic, payload and producer round-trip unchanged (the payload
passes through dumps then loads). -/
theorem c1_publish_roundtrip :
    ∀ (db : DB) (now : Nat) (topic message_id payload producer : Json),
      message_id ≠ Json.null →
      (∀ r ∈ db.messages, r.message_id ≠ message_id) →
      (Broker.get_messages false
          (Broker.save_message false db now topic message_id payload producer).1).filter
        (fun v => v.message_id == message_id)
        = [⟨topic, message_id, some payload, producer, now⟩] := by
  intro db now topic mid payload producer hmid hfresh
  simp only [Broker.save_message, sqlExec, if_neg (Bool.false_ne_true)]
  simp only [Broker.get_messages, sqlExec, if_neg (Bool.false_ne_true)]
  rw [List.filter_map]
  have h1 : (db.messages ++ [(⟨topic, mid, Json.dumps payload, producer, now⟩ : MessageRow)]).filter
      (fun r => !(r.message_id == Json.null))
      = db.messages.filter (fun r => !(r.message_id == Json.null)) ++
          [(⟨topic, mid, Json.dumps payload, producer, now⟩ : MessageRow)] := by
    rw [List.filter_append]
    have : ((⟨topic, mid, Json.dumps payload, producer, now⟩ : MessageRow).message_id == Json.null)
        = false := beq_eq_false_iff_ne.mpr hmid
    simp [this]
  have h2 : (db.messages.filter (fun r => !(r.message_id == Json.null)) ++
        [(⟨topic, mid, Json.dumps payload, producer, now⟩ : MessageRow)]).filter
      ((fun v : MessageView => v.message_id == mid) ∘
        (fun r : MessageRow =>
          MessageView.mk r.topic r.message_id (Json.loads r.message) r.producer r.timestamp))
      = [(⟨topic, mid, Json.dumps payload, producer, now⟩ : MessageRow)] := by
    rw [List.filter_append]
    have hA : (db.messages.filter (fun r => !(r.message_id == Json.null))).filter
        ((fun v : MessageView => v.message_id == mid) ∘
          (fun r : MessageRow =>
            MessageView.mk r.topic r.message_id (Json.loads r.message) r.producer r.timestamp))
        = [] := by
      rw [List.filter_eq_nil_iff]
      intro a ha
      have hmem := (List.mem_filter.mp ha).1
      have hne := hfresh a hmem
      simp [Function.comp, beq_eq_false_iff_ne.mpr hne]
    rw [hA]
    simp [Function.comp]
  have hperm : List.Perm
      ((sortByTsDesc (fun r : MessageRow => r.timestamp)
          ((db.messages ++ [(⟨topic, mid, Json.dumps payload, producer, now⟩ : MessageRow)]).filter
            (fun r => !(r.message_id == Json.null)))).filter
        ((fun v : MessageView => v.message_id == mid) ∘
          (fun r : MessageRow =>
            MessageView.mk r.topic r.message_id (Json.loads r.message) r.producer r.timestamp)))
      [(⟨topic, mid, Json.dumps payload, producer, now⟩ : MessageRow)] := by
    have hs := (sortByTsDesc_perm (fun r : MessageRow => r.timestamp)
      ((db.messages ++ [(⟨topic, mid, Json.dumps payload, producer, now⟩ : MessageRow)]).filter
        (fun r => !(r.message_id == Json.null)))).filter
      ((fun v : MessageView => v.message_id == mid) ∘
        (fun r : MessageRow =>
          MessageView.mk r.topic r.message_id (Json.loads r.message) r.producer r.timestamp))
    refine hs.trans ?_
    rw [h1, h2]
  rw [List.perm_singleton.mp hperm]
  simp [loads_dumps]

/-- C1 witness: publish a structured payload into an empty store and list it back. -/
theorem c1_witness :
    (Json.str "m1" ≠ Json.null) ∧
    (Broker.get_messages false
        (Broker.save_message false dbEmpty 0 (Json.str "sport") (Json.str "m1")
          (Json.obj [("score", Json.str "1-0")]) (Json.str "bot")).1).filter
      (fun v => v.message_id == Json.str "m1")
      = [⟨Json.str "sport", Json.str "m1", some (Json.obj [("score", Json.str "1-0")]),
          Json.str "bot", 0⟩] :=
  ⟨by decide, c1_publish_roundtrip dbEmpty 0 _ _ _ _ (by decide) (by decide)⟩

theorem fold_save_consumption (now : Nat) (topic message_id payload : Json) :
    ∀ (consumers : List Json) (db : DB),
      consumers.foldl (fun d c =>
          (Broker.save_consumption false d now c topic message_id payload).1) db
        = { db with consumptions := (db.consumptions ++ consumers.map
              (fun c => ConsumptionRow.mk c topic message_id (Json.dumps payload) now)) } := by
  intro consumers
  induction consumers with
  | nil => intro db; simp
  | cons c cs ih =>
    intro db
    rw [List.foldl_cons, ih]
    simp [Broker.save_consumption, sqlExec]

/-- C7: recordConsumption appends unconditionally - for any store, recording M
consumptions of one message_id appends M rows (no overwrite, no dedup, and no check
against the messages or subscriptions tables, since the store is arbitrary), all M are
visible in listConsumptions, and with M distinct consumers the M rows are pairwise
distinct. -/
theorem c7_consumption_append :
    ∀ (db : DB) (now : Nat) (topic message_id payload : Json) (consumers : List Json),
      message_id ≠ Json.null →
      ((consumers.foldl (fun d c =>
            (Broker.save_consumption false d now c topic message_id payload).1) db).consumptions
        = db.consumptions ++ consumers.map
            (fun c => ConsumptionRow.mk c topic message_id (Json.dumps payload) now)) ∧
      ((Broker.get_consumptions false (consumers.foldl (fun d c =>
              (Broker.save_consumption false d now c topic message_id payload).1) db)).countP
          (fun v => v.message_id == message_id)
        = (Broker.get_consumptions false db).countP
            (fun v => v.message_id == message_id) + consumers.length) ∧
      (consumers.Nodup →
        (consumers.map (fun c =>
            ConsumptionRow.mk c topic message_id (Json.dumps payload) now)).Nodup) := by
  intro db now topic mid payload consumers hmid
  refine ⟨by rw [fold_save_consumption], ?_, ?_⟩
  · rw [fold_save_consumption]
    simp only [Broker.get_consumptions, sqlExec, if_neg (Bool.false_ne_true)]
    rw [List.countP_map, List.countP_map]
    rw [(sortByTsDesc_perm (fun r : ConsumptionRow => r.timestamp) _).countP_eq,
        (sortByTsDesc_perm (fun r : ConsumptionRow => r.timestamp) _).countP_eq]
    rw [List.filter_append, List.countP_append]
    have hnew : (consumers.map (fun c =>
        ConsumptionRow.mk c topic mid (Json.dumps payload) now)).filter
        (fun r => !(r.message_id == Json.null))
        = consumers.map (fun c => ConsumptionRow.mk c topic mid (Json.dumps payload) now) := by
      rw [List.filter_eq_self]
      intro a ha
      obtain ⟨c, _, rfl⟩ := List.mem_map.mp ha
      simp [beq_eq_false_iff_ne.mpr hmid]
    rw [hnew]
    have hcount : (consumers.map (fun c =>
        ConsumptionRow.mk c topic mid (Json.dumps payload) now)).countP
        ((fun v : ConsumptionView => v.message_id == mid) ∘
          (fun r : ConsumptionRow =>
            ConsumptionView.mk r.consumer r.topic r.message_id (Json.loads r.message) r.timestamp))
        = (consumers.map (fun c =>
            ConsumptionRow.mk c topic mid (Json.dumps payload) now)).length := by
      rw [List.countP_eq_length]
      intro a ha
      obtain ⟨c, _, rfl⟩ := List.mem_map.mp ha
      simp [Function.comp]
    rw [hcount, List.length_map]
  · intro hnd
    refine List.Nodup.map ?_ hnd
    intro a b hab
    simpa using hab

/-- C7 witness: two distinct consumers acknowledge the same message in an empty store. -/
theorem c7_witness :
    (Json.str "m1" ≠ Json.null) ∧
    ((([Json.str "alice", Json.str "carol"] : List Json).foldl (fun d c =>
          (Broker.save_consumption false d 5 c (Json.str "sport") (Json.str "m1")
            (Json.str "payload")).1) dbEmpty).consumptions
      = dbEmpty.consumptions ++ ([Json.str "alice", Json.str "carol"] : List Json).map
          (fun c => ConsumptionRow.mk c (Json.str "sport") (Json.str "m1")
            (Json.dumps (Json.str "payload")) 5)) :=
  ⟨by decide,
   (c7_consumption_append dbEmpty 5 (Json.str "sport") (Json.str "m1") (Json.str "payload")
     [Json.str "alice", Json.str "carol"] (by decide)).1⟩
